import Mathlib

/-!
A shallow embedding of `src/log/logread.c` (the `logread` utility of the
ubox repository): frame decoding, record parsing, filtering, formatting
(fixed layout and placeholder templates) and sink delivery, together with
theorems settling the specification claims about it.

Strings are modelled as `List Char`, machine integers as `Nat`/`Int` with
explicit `% 2^w` where the C code reads fixed-width fields.  Side effects
(file rotation, writes, timers, diagnostics, process exit) are recorded as
an explicit action trace.
-/

namespace Logread

/-! ## Small string helpers (decimal rendering, padding) -/

/-- Decimal rendering of a natural number (models printf `%u` / `%lu`). -/
def decNat (n : Nat) : List Char := Nat.toDigits 10 n

/-- Zero-padded two-digit field (printf `%02d`). -/
def pad2 (n : Nat) : List Char :=
  List.replicate (2 - (decNat n).length) '0' ++ decNat n

/-- Zero-padded three-digit field (printf `%03u`). -/
def pad3 (n : Nat) : List Char :=
  List.replicate (3 - (decNat n).length) '0' ++ decNat n

/-- Zero-padded four-digit field. -/
def pad4 (n : Nat) : List Char :=
  List.replicate (4 - (decNat n).length) '0' ++ decNat n

/-- Space-padded two-digit day-of-month field (printf `%2d`, as in ctime). -/
def pad2sp (n : Nat) : List Char :=
  List.replicate (2 - (decNat n).length) ' ' ++ decNat n

/-! ## Calendar conversion

Modelled from the spec: the RFC3339 renderer (`../rfc3339/timestamp.h`,
`timestamp_format_precision`) and libc `ctime` are outside `src/`; the spec
describes them as "a human-readable local-time rendering of the timestamp"
and "the RFC3339 string with millisecond precision".  We model both over
civil-from-days conversion (UTC), which none of the claims inspect. -/

/-- Civil date (year, month, day) from days since the Unix epoch. -/
def civilFromDays (z0 : Nat) : Nat × Nat × Nat :=
  let z := z0 + 719468
  let era := z / 146097
  let doe := z % 146097
  let yoe := (doe - doe / 1460 + doe / 36524 - doe / 146096) / 365
  let y := yoe + era * 400
  let doy := doe - (365 * yoe + yoe / 4 - yoe / 100)
  let mp := (5 * doy + 2) / 153
  let d := doy - (153 * mp + 2) / 5 + 1
  let m := if mp < 10 then mp + 3 else mp - 9
  (if m ≤ 2 then y + 1 else y, m, d)

/-- Three-letter month name used by ctime output. -/
def monthName (m : Nat) : List Char :=
  (["Jan", "Feb", "Mar", "Apr", "May", "Jun", "Jul", "Aug", "Sep", "Oct",
    "Nov", "Dec"].getD (m - 1) "???").toList

/-- Three-letter weekday name used by ctime output (epoch day 0 was a Thursday). -/
def dayName (w : Nat) : List Char :=
  (["Sun", "Mon", "Tue", "Wed", "Thu", "Fri", "Sat"].getD w "???").toList

/-- Modelled from the spec: libc `ctime` rendering
`"Www Mmm dd hh:mm:ss yyyy\n"` of epoch seconds, in UTC. -/
def ctimeModel (t : Nat) : List Char :=
  let days := t / 86400
  let sod := t % 86400
  let ymd := civilFromDays days
  dayName ((days + 4) % 7) ++ [' '] ++ monthName ymd.2.1 ++ [' ']
    ++ pad2sp ymd.2.2 ++ [' '] ++ pad2 (sod / 3600) ++ [':']
    ++ pad2 ((sod / 60) % 60) ++ [':'] ++ pad2 (sod % 60) ++ [' ']
    ++ decNat ymd.1 ++ ['\n']

/-- Modelled from the spec: `timestamp_format_precision` with precision 3
renders `"YYYY-MM-DDThh:mm:ss.mmmZ"`; the destination buffer holds 24
characters plus the terminator. -/
def rfcStr (sec ms : Nat) : List Char :=
  let days := sec / 86400
  let sod := sec % 86400
  let ymd := civilFromDays days
  (pad4 ymd.1 ++ ['-'] ++ pad2 ymd.2.1 ++ ['-'] ++ pad2 ymd.2.2 ++ ['T']
    ++ pad2 (sod / 3600) ++ [':'] ++ pad2 ((sod / 60) % 60) ++ [':']
    ++ pad2 (sod % 60) ++ ['.'] ++ pad3 ms ++ ['Z']).take 24

/-- The `"[<seconds>.<millis>] "` extra-timestamp string:
`snprintf(buf_ts, sizeof(buf_ts), "[%lu.%03u] ", t, t_ms)` with a
32-byte destination buffer. -/
def tsStr (t tms : Nat) : List Char :=
  (['['] ++ decNat t ++ ['.'] ++ pad3 tms ++ [']', ' ']).take 31

/-! ## syslog name tables

Modelled from the spec: `facilitynames` / `prioritynames` come from libc
`<syslog.h>` (compiled with `SYSLOG_NAMES`), outside `src/`; the spec calls
them "fixed reference tables (24 facility names, 8 severity names)". -/

def prioritynames : List (Int × List Char) :=
  [(1, "alert".toList), (2, "crit".toList), (7, "debug".toList),
   (0, "emerg".toList), (3, "err".toList), (6, "info".toList),
   (5, "notice".toList), (4, "warning".toList)]

def facilitynames : List (Int × List Char) :=
  [(32, "auth".toList), (80, "authpriv".toList), (72, "cron".toList),
   (24, "daemon".toList), (88, "ftp".toList), (0, "kern".toList),
   (48, "lpr".toList), (16, "mail".toList), (56, "news".toList),
   (40, "syslog".toList), (8, "user".toList), (64, "uucp".toList),
   (128, "local0".toList), (136, "local1".toList), (144, "local2".toList),
   (152, "local3".toList), (160, "local4".toList), (168, "local5".toList),
   (176, "local6".toList), (184, "local7".toList)]

/-- Model of `getcodetext`: scan a `CODE` table for the value, `"<unknown>"` when
absent or negative. -/
def getcodetext (v : Int) (tbl : List (Int × List Char)) : List Char :=
  if 0 ≤ v then
    match tbl.find? (fun e => e.1 == v) with
    | some e => e.2
    | none => "<unknown>".toList
  else "<unknown>".toList

/-! ## Inbound frames and the record parser (`blobmsg_parse` + `log_policy`) -/

/-- Declared blobmsg field types used by `log_policy`. -/
inductive BTy where
  | tstr
  | t32
  | t64
deriving DecidableEq

/-- A blobmsg attribute value; `vbool` stands for any other declared type. -/
inductive BVal where
  | vstr (s : List Char)
  | v32 (n : Nat)
  | v64 (n : Nat)
  | vbool (b : Bool)
deriving DecidableEq

/-- One named attribute of an inbound frame's payload. -/
structure BAttr where
  name : List Char
  val : BVal
deriving DecidableEq

/-- The decoded payload of one inbound frame. -/
abbrev Frame := List BAttr

/-- Whether a value carries the policy's declared type. -/
def matchesTy : BVal → BTy → Bool
  | BVal.vstr _, BTy.tstr => true
  | BVal.v32 _, BTy.t32 => true
  | BVal.v64 _, BTy.t64 => true
  | _, _ => false

/-- Model of the `blobmsg_parse` slot fill: the first attribute whose name matches the
policy entry and whose declared type matches; an attribute of the right
name but wrong type does not fill the slot. -/
def tbLookup (f : Frame) (nm : List Char) (ty : BTy) : Option BVal :=
  (f.find? (fun a => a.name == nm && matchesTy a.val ty)).map (fun a => a.val)

/-- The parsed record: `msg`, `id`, `priority`, `source`, `time` (ms). -/
structure ParsedRec where
  m : List Char
  idv : Nat
  prio : Nat
  src : Nat
  timeMs : Nat
deriving DecidableEq

/-- Parse a frame against `log_policy`; `none` models `log_notify`'s
`return 1` when any of the five required fields is absent or mistyped
(`!tb[LOG_ID] || !tb[LOG_PRIO] || !tb[LOG_SOURCE] || !tb[LOG_TIME] || !tb[LOG_MSG]`). -/
def parseFrame (f : Frame) : Option ParsedRec :=
  match tbLookup f ("msg".toList) BTy.tstr, tbLookup f ("id".toList) BTy.t32,
        tbLookup f ("priority".toList) BTy.t32,
        tbLookup f ("source".toList) BTy.t32,
        tbLookup f ("time".toList) BTy.t64 with
  | some (BVal.vstr m), some (BVal.v32 i), some (BVal.v32 p),
      some (BVal.v32 s), some (BVal.v64 t) =>
      some ⟨m, i % 4294967296, p % 4294967296, s % 4294967296,
            t % 18446744073709551616⟩
  | _, _, _, _, _ => none

/-- Convenience builder for a well-formed frame. -/
def mkFrame (m : List Char) (i p s t : Nat) : Frame :=
  [⟨"msg".toList, BVal.vstr m⟩, ⟨"id".toList, BVal.v32 i⟩,
   ⟨"priority".toList, BVal.v32 p⟩, ⟨"source".toList, BVal.v32 s⟩,
   ⟨"time".toList, BVal.v64 t⟩]

/-! ## Configuration, environment and the action trace -/

/-- Sink kind `log_type`: `LOG_STDOUT`, `LOG_FILE`, `LOG_NET`. -/
inductive SinkKind where
  | kStdout
  | kFile
  | kNet
deriving DecidableEq, BEq

/-- The option-derived globals of logread that `log_notify` reads. -/
structure Config where
  log_type : SinkKind
  log_size : Nat
  log_udp : Bool
  log_trailer_null : Bool
  log_timestamp : Bool
  host : Option (List Char)
  prefixText : Option (List Char)
  filterMatch : Option (List Char → Bool)
  tpl : Option (List Char)
  filePath : List Char

/-- Outcomes of the system calls one `log_notify` invocation may perform. -/
structure Env where
  statSize : Option Int
  openRes : Int
  netWriteRes : Int
  fileWriteRes : Int
deriving DecidableEq

/-- Observable side effects of the embedded code, in program order. -/
inductive Act where
  | closeFd (fd : Int)
  | renameTo (src dst : List Char)
  | openFile (p : List Char)
  | diag (s : List Char)
  | note (s : List Char)
  | netWrite (bytes : List Char)
  | sinkWrite (bytes : List Char)
  | fdDel
  | fdAdd
  | timerSet (ms : Nat)
  | fsyncFd (fd : Int)
  | procExit (code : Int)
deriving DecidableEq

/-- Result of one `log_notify` call: the sink fd afterwards, the action
trace, the C return value and whether the process called `exit`. -/
structure NRes where
  fd : Int
  acts : List Act
  ret : Int
  exited : Bool
deriving DecidableEq

/-- Result of the file-rotation block (lines 140-154). -/
structure RotRes where
  fd : Int
  acts : List Act
  exited : Bool
deriving DecidableEq

def openFailDiag : List Char := "failed to open".toList
def ovfDiag : List Char := "size of log is larger than the internal buffer".toList
def tplBigDiag : List Char := "size of template is larger than the internal buffer".toList
def sendFailNote : List Char := "failed to send log data".toList
def connFailDiag : List Char := "failed to connect".toList
def connOkNote : List Char := "Logread connected".toList

/-- The rotation target `<path>.old` (`sprintf(old, "%s.old", log_file)`). -/
def oldPath (p : List Char) : List Char := p ++ ".old".toList

/-- The rotation trigger:
`(log_type == LOG_FILE) && log_size && (!stat(log_file, &s)) && (s.st_size > log_size)`. -/
def rotCond (cfg : Config) (env : Env) : Bool :=
  (cfg.log_type == SinkKind.kFile) && (cfg.log_size != 0) &&
    (match env.statSize with
     | some sz => decide ((cfg.log_size : Int) < sz)
     | none => false)

/-- The rotation block: close the fd, rename the file to `<path>.old`,
reopen `<path>`; a failed reopen prints a diagnostic and exits. -/
def rotStep (cfg : Config) (env : Env) (fd : Int) : RotRes :=
  if rotCond cfg env then
    let acts := [Act.closeFd fd,
                 Act.renameTo cfg.filePath (oldPath cfg.filePath),
                 Act.openFile cfg.filePath]
    if env.openRes < 0 then
      ⟨env.openRes, acts ++ [Act.diag openFailDiag, Act.procExit (-1)], true⟩
    else ⟨env.openRes, acts, false⟩
  else ⟨fd, [], false⟩

/-- The regexp filter: with a configured pattern, `regexec` deciding a
match; without one every record passes. -/
def filterPass (cfg : Config) (m : List Char) : Bool :=
  match cfg.filterMatch with
  | none => true
  | some f => f m

/-! ## Template engine (`log_template` block, lines 172-256) -/

/-- Table `TPL_FIELDS`, in enumeration order. -/
def tokList : List (List Char) :=
  ["%message%".toList, "%priority%".toList, "%source%".toList,
   "%timestamp%".toList, "%rfc3339%".toList]

/-- The placeholder token at an enumeration index. -/
def tokAt (k : Nat) : List Char := tokList.getD k []

/-- Model of `strstr`: the first index at which `tok` occurs in `s`. -/
def strstrIdx (tok : List Char) : List Char → Option Nat
  | [] => if tok.isPrefixOf ([] : List Char) then some 0 else none
  | a :: s =>
      if tok.isPrefixOf (a :: s) then some 0
      else (strstrIdx tok s).map (fun n => n + 1)

/-- One inner-loop comparison of `log_notify`'s placeholder search: keep
the current best hit unless this token occurs no later
(`if (!substrbuf || (substrnext && substrbuf > substrnext)) continue;`). -/
def better (st : Option (Nat × Nat)) (q : Option Nat) (i : Nat) :
    Option (Nat × Nat) :=
  match q, st with
  | none, _ => st
  | some qq, none => some (qq, i)
  | some qq, some (p, k) => if p < qq then some (p, k) else some (qq, i)

/-- Fold of `better` over the token table with running index. -/
def findTokAux (r : List Char) : List (List Char) → Nat →
    Option (Nat × Nat) → Option (Nat × Nat)
  | [], _, st => st
  | tok :: toks, i, st => findTokAux r toks (i + 1) (better st (strstrIdx tok r) i)

/-- The placeholder chosen by one pass of the inner `for` loop over
`TPL_FIELDS`: position in `r` and token index. -/
def findTok (r : List Char) : Option (Nat × Nat) :=
  findTokAux r tokList 0 none

/-- The per-record strings substituted for the five placeholders. -/
structure FieldStrs where
  fMsg : List Char
  fPrio : List Char
  fSrc : List Char
  fTs : List Char
  fRfc : List Char

/-- The substitution text for a token index (the `switch (tpli)`). -/
def fieldOf (fs : FieldStrs) : Nat → List Char
  | 0 => fs.fMsg
  | 1 => fs.fPrio
  | 2 => fs.fSrc
  | 3 => fs.fTs
  | 4 => fs.fRfc
  | _ => []

/-- The source-name rendering of the template `%source%` placeholder
(`SOURCE_KLOG`/`SOURCE_SYSLOG`/`SOURCE_INTERNAL` from `syslog.h`). -/
def srcName (s : Nat) : List Char :=
  if s = 0 then "kernel".toList
  else if s = 1 then "syslog".toList
  else if s = 2 then "internal".toList
  else "-".toList

/-- Reduction of an integer to the value a 16-bit C `short` holds after
an out-of-range assignment (two's complement wraparound): the
representative of `x` modulo 2^16 lying in `[-32768, 32767]`. -/
def wrap16 (x : Int) : Int :=
  let m := x % 65536
  if m < 32768 then m else m - 65536

/-- The substitution loop (`for (;;)` at line 183).  `pre` is the already
processed part of `buf` (before `substr`), `r` the rest.  Each step finds
the earliest placeholder in `r`, then runs the capacity bookkeeping of
lines 231-250: `availen` starts at 511 (the usable bytes of the 512-byte
buffer), the prefix, field and tail lengths are subtracted in turn and
the two `availen < 0` guards sit between the subtractions.  `availen` is
a 16-bit C `short`, and each compound subtraction is performed in the
promoted/`size_t` width and truncated back to 16 bits on assignment, so
an out-of-range balance wraps — modelled exactly by `wrap16`.  When a
wrapped balance lets a guard pass, the C `strncat` writes past the
512-byte `buf2` (undefined behavior); the model idealizes that write and
continues with the spliced text, which is what matters here: no Overflow
error is raised.  On the non-error path the field text is spliced in and
`substr` skips past it, so substituted text is never rescanned.  The fuel
argument only bounds the recursion; every step removes a token occurrence
from `r`, so `r.length + 1` steps always suffice (see
`tplIter_fuel_irrelevant`). -/
def tplIter (fs : FieldStrs) : Nat → List Char → List Char →
    Except (List Char) (List Char)
  | 0, pre, r => Except.ok (pre ++ r)
  | n + 1, pre, r =>
    match findTok r with
    | none => Except.ok (pre ++ r)
    | some (d, k) =>
      let pfx := pre ++ r.take d
      let field := fieldOf fs k
      let tl := r.drop (d + (tokAt k).length)
      let a1 := wrap16 (wrap16 (511 - (pfx.length : Int)) - (field.length : Int))
      if a1 < 0 then Except.error ovfDiag
      else if wrap16 (a1 - (tl.length : Int)) < 0 then Except.error ovfDiag
      else tplIter fs n (pfx ++ field) tl

/-- The substitution loop with adequate fuel. -/
def tplLoop (fs : FieldStrs) (pre r : List Char) :
    Except (List Char) (List Char) :=
  tplIter fs (r.length + 1) pre r

/-- The whole template block: the entry guard
`(len = strlen(log_template) + 1) > sizeof buf` and then the substitution
loop. -/
def tplFormat (fs : FieldStrs) (tpl : List Char) :
    Except (List Char) (List Char) :=
  if 512 < tpl.length + 1 then Except.error tplBigDiag
  else tplLoop fs [] tpl

/-- The field strings of a record: message, `%u` of priority, source name,
`"[sec.ms] "`, RFC3339. -/
def fieldStrsOf (r : ParsedRec) : FieldStrs :=
  let t := r.timeMs / 1000
  let tms := r.timeMs % 1000
  ⟨r.m, (decNat r.prio).take 10, srcName r.src, tsStr t tms, rfcStr t tms⟩

/-! ## Fixed-mode formatting and delivery -/

/-- Model of `strncat(buf, t, sizeof(buf) - strlen(buf) - 1)` on the 512-byte
buffer: append capped to the remaining capacity. -/
def capConcat (s t : List Char) : List Char := s ++ t.take (511 - s.length)

/-- The fixed-mode network line (`log_type == LOG_NET`, no template):
`"<%u>"`, 11 chars of `ctime(&t) + 4`, then optional timestamp, hostname,
prefix, `"kernel: "` marker and the message, each capped to the buffer. -/
def fixedNetContent (cfg : Config) (r : ParsedRec) : List Char :=
  let t := r.timeMs / 1000
  let tms := r.timeMs % 1000
  let c := (ctimeModel t).dropLast
  let b := ['<'] ++ decNat r.prio ++ ['>']
  let b := b ++ (c.drop 4).take 11
  let b := if cfg.log_timestamp then capConcat b (tsStr t tms) else b
  let b := match cfg.host with
           | some h => capConcat (capConcat b h) [' ']
           | none => b
  let b := match cfg.prefixText with
           | some pt => capConcat (capConcat b pt) (':' :: [' '])
           | none => b
  let b := if r.src == 0 then capConcat b "kernel: ".toList else b
  capConcat b r.m

/-- The fixed-mode console/file line:
`snprintf(buf, sizeof(buf), "%s %s%s.%s%s %s\n", c, ts?, fac, pri, km, m)`
truncated to the 511 usable characters. -/
def fixedStdContent (cfg : Config) (r : ParsedRec) : List Char :=
  let t := r.timeMs / 1000
  let c := (ctimeModel t).dropLast
  (c ++ [' ']
    ++ (if cfg.log_timestamp then tsStr t (r.timeMs % 1000) else [])
    ++ getcodetext (Int.ofNat (r.prio &&& 1016)) facilitynames
    ++ ['.']
    ++ getcodetext (Int.ofNat (r.prio &&& 7)) prioritynames
    ++ (if r.src != 0 then [] else " kernel:".toList)
    ++ [' '] ++ r.m ++ ['\n']).take 511

/-- What a network record's body is before the trailer: the expanded
template when one is configured, else the fixed network line. -/
def netPayloadE (cfg : Config) (r : ParsedRec) :
    Except (List Char) (List Char) :=
  match cfg.tpl with
  | some tpl => tplFormat (fieldStrsOf r) tpl
  | none => Except.ok (fixedNetContent cfg r)

/-- The network record body: the expanded template when template mode is
active (`tplOut`), else the fixed network line. -/
def payloadOf (cfg : Config) (r : ParsedRec) (tplOut : Option (List Char)) :
    List Char :=
  match tplOut with
  | some s => s
  | none => fixedNetContent cfg r

/-- What actually goes on the wire for a network sink: UDP writes
`strlen(buf)` bytes, i.e. exactly the body; TCP sends `buflen + 1` bytes,
the body plus either the newline just stored at `buf[buflen]` or the
terminating null byte already there (`-0` option). -/
def sentBytes (cfg : Config) (payload : List Char) : List Char :=
  if cfg.log_udp then payload
  else payload ++ [if cfg.log_trailer_null then Char.ofNat 0 else '\n']

/-- The console/file line: in template mode the expanded template with a
newline appended (truncating to 510 characters first when full, lines
303-307), else the fixed `snprintf` layout which ends in `"\n"`. -/
def lineOf (cfg : Config) (r : ParsedRec) (tplOut : Option (List Char)) :
    List Char :=
  match tplOut with
  | some s => (if s.length < 511 then s else s.take 510) ++ ['\n']
  | none => fixedStdContent cfg r

/-- Sink delivery (lines 258-316): network writes with UDP/TCP trailer
handling and the reconnect-on-failure transition, or console/file write
with newline termination and fsync for files.  `tplOut` is the expanded
template when template mode is active. -/
def deliver (cfg : Config) (env : Env) (fd : Int) (acts : List Act)
    (r : ParsedRec) (tplOut : Option (List Char)) : NRes :=
  match cfg.log_type with
  | SinkKind.kNet =>
    let acts2 := acts ++ [Act.netWrite (sentBytes cfg (payloadOf cfg r tplOut))]
    if env.netWriteRes < 0 then
      ⟨-1, acts2 ++ [Act.note sendFailNote, Act.fdDel, Act.closeFd fd,
                     Act.timerSet 1000], 0, false⟩
    else ⟨fd, acts2, 0, false⟩
  | k =>
    let acts2 := acts ++ [Act.sinkWrite (lineOf cfg r tplOut)]
                 ++ (if k == SinkKind.kFile then [Act.fsyncFd fd] else [])
    ⟨fd, acts2, env.fileWriteRes, false⟩

/-- Body of `log_notify` (lines 117-317): skip when the sink fd is negative;
parse and silently skip incomplete frames; run the rotation block; apply
the filter; expand the template (dropping the record with a diagnostic on
overflow or an oversized template); deliver to the sink. -/
def log_notify (cfg : Config) (env : Env) (fd0 : Int) (frame : Frame) : NRes :=
  if fd0 < 0 then ⟨fd0, [], 0, false⟩
  else
    match parseFrame frame with
    | none => ⟨fd0, [], 1, false⟩
    | some r =>
      let rs := rotStep cfg env fd0
      if rs.exited then ⟨rs.fd, rs.acts, 0, true⟩
      else if filterPass cfg r.m then
        match cfg.tpl with
        | some tpl =>
          match tplFormat (fieldStrsOf r) tpl with
          | Except.error d => ⟨rs.fd, rs.acts ++ [Act.diag d], 1, false⟩
          | Except.ok s => deliver cfg env rs.fd rs.acts r (some s)
        | none => deliver cfg env rs.fd rs.acts r none
      else ⟨rs.fd, rs.acts, 0, false⟩

/-- The network-write actions of a trace. -/
def netWrites (acts : List Act) : List (List Char) :=
  acts.filterMap (fun a => match a with
    | Act.netWrite b => some b
    | _ => none)

/-- Environment of one reconnect tick: the `usock` result. -/
structure ReEnv where
  connectRes : Int
deriving DecidableEq

/-- Body of `log_handle_reconnect`: try to open the socket; on failure print a
diagnostic and re-arm the 1000 ms retry timer, on success register the fd
with the event loop. -/
def log_handle_reconnect (e : ReEnv) : Int × List Act :=
  if e.connectRes < 0 then
    (e.connectRes, [Act.diag connFailDiag, Act.timerSet 1000])
  else (e.connectRes, [Act.fdAdd, Act.note connOkNote])

/-- Result of draining a batch of decoded frames. -/
structure RunRes where
  fd : Int
  acts : List Act
  rets : List Int
deriving DecidableEq

/-- The frame-draining loop of `logread_fd_data_cb`: `log_notify(a)` is
called on each complete frame and its return value discarded; processing
continues with the next frame unless the process exited. -/
def processFrames (cfg : Config) : Int → List (Frame × Env) → RunRes
  | fd, [] => ⟨fd, [], []⟩
  | fd, (f, e) :: rest =>
    let n := log_notify cfg e fd f
    if n.exited then ⟨n.fd, n.acts, [n.ret]⟩
    else
      let rr := processFrames cfg n.fd rest
      ⟨rr.fd, n.acts ++ rr.acts, n.ret :: rr.rets⟩

/-! ## The frame decoder (`logread_fd_data_cb`, lines 343-357) -/

/-- The declared total length of the frame at the head of the buffer: the
low 24 bits of the big-endian `id_len` header word
(`blob_id_len(attr) & BLOB_ATTR_LEN_MASK`), which counts the 4-byte header
itself plus the payload. -/
def declTotal (buf : List Nat) : Nat :=
  (buf.getD 0 0 * 16777216 + buf.getD 1 0 * 65536 + buf.getD 2 0 * 256
    + buf.getD 3 0) % 16777216

/-- libubox `blob_len`: the declared payload length, i.e. the declared
total minus the 4-byte header (`sizeof(struct blob_attr)`), as an exact
integer. -/
def blobLenModel (buf : List Nat) : Int := (declTotal buf : Int) - 4

/-- One iteration of the decode loop: wait unless the buffer holds a full
header (`len < sizeof(*a)`) and the whole declared frame
(`cur_len = blob_len(a) + sizeof(*a); len < cur_len`); otherwise emit the
frame's bytes and consume exactly them (`ustream_consume(s, cur_len)`). -/
def decodeStep (buf : List Nat) : Option (List Nat × List Nat) :=
  if buf.length < 4 then none
  else
    let cur := declTotal buf
    if buf.length < cur then none
    else some (buf.take cur, buf.drop cur)

/-! ## Concrete scenarios used to exercise the theorems -/

/-- A well-formed frame with message `"hi"`, priority 6, source 1 (syslog),
time 0. -/
def frameW : Frame := mkFrame ("hi".toList) 1 6 1 0

/-- The record `frameW` parses to. -/
def recW : ParsedRec := ⟨"hi".toList, 1, 6, 1, 0⟩

/-- A frame whose `msg` field carries the wrong declared type (int32
instead of string); all other required fields are fine. -/
def frameBad : Frame :=
  [⟨"msg".toList, BVal.v32 5⟩, ⟨"id".toList, BVal.v32 1⟩,
   ⟨"priority".toList, BVal.v32 6⟩, ⟨"source".toList, BVal.v32 1⟩,
   ⟨"time".toList, BVal.v64 0⟩]

/-- Plain stdout configuration. -/
def cfg0 : Config :=
  ⟨SinkKind.kStdout, 0, false, false, false, none, none, none, none, []⟩

/-- Environment in which every system call succeeds. -/
def env0 : Env := ⟨none, 0, 0, 0⟩

/-- File sink with a 1024-byte threshold and a filter that rejects every
message. -/
def cfg10 : Config :=
  ⟨SinkKind.kFile, 1024, false, false, false, none, none,
   some (fun _ => false), none, "L".toList⟩

/-- Environment for `cfg10`: the file is observed at 2000 bytes (over
threshold) and the reopen yields fd 7. -/
def env10 : Env := ⟨some 2000, 7, 0, 0⟩

/-- File sink in template mode, no size threshold, failing writes. -/
def cfg1c : Config :=
  ⟨SinkKind.kFile, 0, false, false, false, none, none, none,
   some ("%message%".toList), "L".toList⟩

/-- Environment for `cfg1c`: every file write fails with -1. -/
def env1c : Env := ⟨some 0, 0, 0, -1⟩

/-- File sink in template mode with a 1024-byte threshold. -/
def cfg2c : Config :=
  ⟨SinkKind.kFile, 1024, false, false, false, none, none, none,
   some ("%message%".toList), "L".toList⟩

/-- Environment for `cfg2c`: the file is observed at exactly the
1024-byte threshold; writes succeed. -/
def env2c : Env := ⟨some 1024, 5, 0, 0⟩

/-- A 520-character message: expanding `"%message%"` with it cannot fit
the 512-byte buffer, and the deficit is small enough that the 16-bit
`availen` does not wrap, so the overflow check fires. -/
def bigMsg : List Char := List.replicate 520 'a'

/-- The record carrying `bigMsg`. -/
def recBig : ParsedRec := ⟨bigMsg, 1, 6, 1, 0⟩

/-- A 40000-character message: substituting it leaves
`availen = 511 - 40000`, which the 16-bit `short` stores as `+26047`, so
the overflow check is bypassed. -/
def hugeMsg : List Char := List.replicate 40000 'a'

/-- The record carrying `hugeMsg`. -/
def recHuge : ParsedRec := ⟨hugeMsg, 1, 6, 1, 0⟩

/-- UDP network sink in template mode. -/
def cfg7 : Config :=
  ⟨SinkKind.kNet, 0, true, false, false, none, none, none,
   some ("%message%".toList), []⟩

/-- TCP network sink in template mode. -/
def cfg4 : Config :=
  ⟨SinkKind.kNet, 0, false, false, false, none, none, none,
   some ("%message%".toList), []⟩

/-- Environment whose network write fails. -/
def env4 : Env := ⟨none, 0, -1, 0⟩

/-- A well-formed frame with message `"x"`. -/
def frameX : Frame := mkFrame ("x".toList) 1 6 1 0

/-- The record `frameX` parses to. -/
def recX : ParsedRec := ⟨"x".toList, 1, 6, 1, 0⟩

/-- A well-formed frame with message `"y"`. -/
def frameY : Frame := mkFrame ("y".toList) 1 6 1 0

/-- Environment in which the file is over threshold and the rotation
reopen fails. -/
def envRotFail : Env := ⟨some 2000, -1, 0, 0⟩

end Logread

deriving instance DecidableEq for Except

namespace Logread

set_option maxRecDepth 10000

/-! ## Lemmas about the placeholder search -/

/-- A `strstr` hit is an occurrence. -/
theorem strstr_isPrefixOf (tok : List Char) :
    ∀ (s : List Char) (q : Nat), strstrIdx tok s = some q →
      tok.isPrefixOf (s.drop q) = true := by
  intro s
  induction s with
  | nil =>
    intro q h
    simp only [strstrIdx] at h
    cases hc : tok.isPrefixOf ([] : List Char) with
    | true =>
      simp only [hc, if_true] at h
      cases h
      simpa using hc
    | false => simp [hc] at h
  | cons a s ih =>
    intro q h
    simp only [strstrIdx] at h
    cases hc : tok.isPrefixOf (a :: s) with
    | true =>
      simp only [hc, if_true] at h
      cases h
      simpa using hc
    | false =>
      simp only [hc, if_false, Bool.false_eq_true] at h
      rcases Option.map_eq_some'.mp h with ⟨q', hq', hq⟩
      cases hq
      simpa using ih q' hq'

/-- A `strstr` hit is the first occurrence. -/
theorem strstr_min (tok : List Char) :
    ∀ (s : List Char) (q : Nat), strstrIdx tok s = some q →
      ∀ j, tok.isPrefixOf (s.drop j) = true → q ≤ j := by
  intro s
  induction s with
  | nil =>
    intro q h j hj
    simp only [strstrIdx] at h
    cases hc : tok.isPrefixOf ([] : List Char) with
    | true =>
      simp only [hc, if_true] at h
      cases h
      exact Nat.zero_le j
    | false => simp [hc] at h
  | cons a s ih =>
    intro q h j hj
    simp only [strstrIdx] at h
    cases hc : tok.isPrefixOf (a :: s) with
    | true =>
      simp only [hc, if_true] at h
      cases h
      exact Nat.zero_le j
    | false =>
      simp only [hc, if_false, Bool.false_eq_true] at h
      rcases Option.map_eq_some'.mp h with ⟨q', hq', hq⟩
      cases hq
      cases j with
      | zero =>
        rw [List.drop_zero] at hj
        rw [hj] at hc
        cases hc
      | succ j => exact Nat.succ_le_succ (ih q' hq' j (by simpa using hj))

/-- When `strstr` misses, there is no occurrence at all. -/
theorem strstr_none (tok : List Char) :
    ∀ (s : List Char), strstrIdx tok s = none →
      ∀ j, tok.isPrefixOf (s.drop j) = false := by
  intro s
  induction s with
  | nil =>
    intro h j
    simp only [strstrIdx] at h
    cases hc : tok.isPrefixOf ([] : List Char) with
    | true => simp [hc] at h
    | false => simpa [List.drop_nil] using hc
  | cons a s ih =>
    intro h j
    simp only [strstrIdx] at h
    cases hc : tok.isPrefixOf (a :: s) with
    | true => simp [hc] at h
    | false =>
      simp only [hc, if_false, Bool.false_eq_true] at h
      have h2 : strstrIdx tok s = none := Option.map_eq_none'.mp h
      cases j with
      | zero => simpa using hc
      | succ j => simpa using ih h2 j

/-- The fold step `better` keeps `none` only when both inputs miss. -/
theorem better_eq_none {st : Option (Nat × Nat)} {q : Option Nat} {i : Nat} :
    better st q i = none ↔ st = none ∧ q = none := by
  cases q with
  | none => simp [better]
  | some qq =>
    cases st with
    | none => simp [better]
    | some pk =>
      obtain ⟨p, k⟩ := pk
      simp only [better]
      split_ifs <;> simp

/-- A `better` result is either the previous best or the new token's hit. -/
theorem better_some_src {st : Option (Nat × Nat)} {q : Option Nat} {i p k : Nat}
    (h : better st q i = some (p, k)) :
    st = some (p, k) ∨ (q = some p ∧ k = i) := by
  cases q with
  | none => exact Or.inl (by simpa [better] using h)
  | some qq =>
    cases st with
    | none =>
      simp only [better, Option.some.injEq, Prod.mk.injEq] at h
      exact Or.inr ⟨by rw [h.1], h.2.symm⟩
    | some pk =>
      obtain ⟨p0, k0⟩ := pk
      simp only [better] at h
      split_ifs at h with hlt
      · exact Or.inl h
      · simp only [Option.some.injEq, Prod.mk.injEq] at h
        exact Or.inr ⟨by rw [h.1], h.2.symm⟩

/-- The `better` position never exceeds the previous best's. -/
theorem better_le_st {st : Option (Nat × Nat)} {q : Option Nat} {i p k : Nat}
    (h : better st q i = some (p, k)) :
    ∀ p0 k0, st = some (p0, k0) → p ≤ p0 := by
  intro p0 k0 h0
  subst h0
  cases q with
  | none => simp only [better, Option.some.injEq, Prod.mk.injEq] at h; omega
  | some qq =>
    simp only [better] at h
    split_ifs at h with hlt <;>
      simp only [Option.some.injEq, Prod.mk.injEq] at h <;> omega

/-- The `better` position never exceeds the new token's hit. -/
theorem better_le_q {st : Option (Nat × Nat)} {q : Option Nat} {i p k : Nat}
    (h : better st q i = some (p, k)) :
    ∀ q0, q = some q0 → p ≤ q0 := by
  intro q0 h0
  subst h0
  cases st with
  | none => simp only [better, Option.some.injEq, Prod.mk.injEq] at h; omega
  | some pk =>
    obtain ⟨p0, k0⟩ := pk
    simp only [better] at h
    split_ifs at h with hlt <;>
      simp only [Option.some.injEq, Prod.mk.injEq] at h <;> omega

/-- A missing fold result means every token missed. -/
theorem findTokAux_none {r : List Char} :
    ∀ (toks : List (List Char)) (i : Nat) (st : Option (Nat × Nat)),
      findTokAux r toks i st = none →
      st = none ∧ ∀ tok ∈ toks, strstrIdx tok r = none := by
  intro toks
  induction toks with
  | nil =>
    intro i st h
    simp only [findTokAux] at h
    exact ⟨h, by simp⟩
  | cons tok toks ih =>
    intro i st h
    simp only [findTokAux] at h
    obtain ⟨h1, h2⟩ := ih _ _ h
    obtain ⟨h3, h4⟩ := better_eq_none.mp h1
    refine ⟨h3, ?_⟩
    intro t ht
    rcases List.mem_cons.mp ht with rfl | ht2
    · exact h4
    · exact h2 t ht2

/-- When every token misses, the fold keeps `none`. -/
theorem findTokAux_none_rev {r : List Char} :
    ∀ (toks : List (List Char)) (i : Nat),
      (∀ tok ∈ toks, strstrIdx tok r = none) →
      findTokAux r toks i none = none := by
  intro toks
  induction toks with
  | nil => intro i _; rfl
  | cons tok toks ih =>
    intro i hall
    have h0 : strstrIdx tok r = none := hall tok (by simp)
    simp only [findTokAux, h0]
    exact ih (i + 1) (fun t ht => hall t (by simp [ht]))

/-- A fold hit comes from the initial state or from some listed token. -/
theorem findTokAux_some_src {r : List Char} :
    ∀ (toks : List (List Char)) (i : Nat) (st : Option (Nat × Nat)) (p k : Nat),
      findTokAux r toks i st = some (p, k) →
      st = some (p, k) ∨
        ∃ j tok, toks[j]? = some tok ∧ k = i + j ∧ strstrIdx tok r = some p := by
  intro toks
  induction toks with
  | nil =>
    intro i st p k h
    exact Or.inl (by simpa [findTokAux] using h)
  | cons tok toks ih =>
    intro i st p k h
    simp only [findTokAux] at h
    rcases ih _ _ _ _ h with h1 | ⟨j, tok', hj, hk, hocc⟩
    · rcases better_some_src h1 with h2 | ⟨hq, hki⟩
      · exact Or.inl h2
      · exact Or.inr ⟨0, tok, by simp, by omega, hq⟩
    · exact Or.inr ⟨j + 1, tok', by simpa using hj, by omega, hocc⟩

/-- The fold's position is minimal among the initial state and all hits. -/
theorem findTokAux_min {r : List Char} :
    ∀ (toks : List (List Char)) (i : Nat) (st : Option (Nat × Nat)) (p k : Nat),
      findTokAux r toks i st = some (p, k) →
      (∀ p0 k0, st = some (p0, k0) → p ≤ p0) ∧
      (∀ tok ∈ toks, ∀ q, strstrIdx tok r = some q → p ≤ q) := by
  intro toks
  induction toks with
  | nil =>
    intro i st p k h
    simp only [findTokAux] at h
    refine ⟨?_, by simp⟩
    intro p0 k0 h0
    rw [h0] at h
    cases h
    exact Nat.le_refl p
  | cons tok toks ih =>
    intro i st p k h
    simp only [findTokAux] at h
    obtain ⟨ihst, ihtoks⟩ := ih _ _ _ _ h
    constructor
    · intro p0 k0 h0
      have hne : better st (strstrIdx tok r) i ≠ none := by
        intro hb
        obtain ⟨h3, _⟩ := better_eq_none.mp hb
        rw [h0] at h3
        cases h3
      obtain ⟨⟨p1, k1⟩, hb⟩ := Option.ne_none_iff_exists'.mp hne
      exact Nat.le_trans (ihst p1 k1 hb) (better_le_st hb p0 k0 h0)
    · intro t ht q hq
      rcases List.mem_cons.mp ht with rfl | ht2
      · have hne : better st (strstrIdx t r) i ≠ none := by
          rw [hq]
          intro hb
          obtain ⟨_, h4⟩ := better_eq_none.mp hb
          cases h4
        obtain ⟨⟨p1, k1⟩, hb⟩ := Option.ne_none_iff_exists'.mp hne
        exact Nat.le_trans (ihst p1 k1 hb) (better_le_q hb q hq)
      · exact ihtoks t ht2 q hq

/-- A chosen placeholder is a real occurrence of a real token. -/
theorem findTok_occ {r : List Char} {d k : Nat} (h : findTok r = some (d, k)) :
    k < 5 ∧ strstrIdx (tokAt k) r = some d := by
  rcases findTokAux_some_src tokList 0 none d k h with h1 | ⟨j, tok, hj, hk, hocc⟩
  · cases h1
  · obtain ⟨hlt, hget⟩ := List.getElem?_eq_some_iff.mp hj
    have hk5 : k < 5 := by
      have : tokList.length = 5 := by decide
      omega
    have htok : tokAt k = tok := by
      unfold tokAt List.getD
      have hkj : k = j := by omega
      rw [hkj, List.get?_eq_getElem?, hj]
      rfl
    rw [htok]
    exact ⟨hk5, hocc⟩

/-- The chosen position is the earliest hit of any token. -/
theorem findTok_min {r : List Char} {d k : Nat} (h : findTok r = some (d, k)) :
    ∀ i, i < 5 → ∀ q, strstrIdx (tokAt i) r = some q → d ≤ q := by
  intro i hi q hq
  have hmem : tokAt i ∈ tokList := by interval_cases i <;> decide
  exact (findTokAux_min tokList 0 none d k h).2 (tokAt i) hmem q hq

/-- The search `findTok` misses exactly when every token misses. -/
theorem findTok_none_iff {r : List Char} :
    findTok r = none ↔ ∀ tok ∈ tokList, strstrIdx tok r = none := by
  constructor
  · intro h
    exact (findTokAux_none tokList 0 none h).2
  · intro h
    exact findTokAux_none_rev tokList 0 h

/-- No two distinct placeholder tokens are prefixes of one another. -/
theorem tok_not_prefix_tok :
    ∀ a b : Fin 5, a ≠ b →
      ((tokAt a.val).isPrefixOf (tokAt b.val)) = false := by decide

/-- At a fixed position of the text, at most one token can occur. -/
theorem tok_unique (x : List Char) (i j : Fin 5)
    (hi : (tokAt i.val).isPrefixOf x = true)
    (hj : (tokAt j.val).isPrefixOf x = true) : i = j := by
  by_contra hne
  have h1 : tokAt i.val <+: x := List.isPrefixOf_iff_prefix.mp hi
  have h2 : tokAt j.val <+: x := List.isPrefixOf_iff_prefix.mp hj
  rcases List.prefix_or_prefix_of_prefix h1 h2 with h | h
  · have h3 := List.isPrefixOf_iff_prefix.mpr h
    have h4 := tok_not_prefix_tok i j hne
    simp_all
  · have h3 := List.isPrefixOf_iff_prefix.mpr h
    have h4 := tok_not_prefix_tok j i (Ne.symm hne)
    simp_all

/-- Only the chosen token occurs at the chosen position. -/
theorem findTok_at_pos {r : List Char} {d k i : Nat}
    (h : findTok r = some (d, k)) (hi : i < 5)
    (hocc : strstrIdx (tokAt i) r = some d) : i = k := by
  obtain ⟨hk5, hkocc⟩ := findTok_occ h
  have hpi := strstr_isPrefixOf (tokAt i) r d hocc
  have hpk := strstr_isPrefixOf (tokAt k) r d hkocc
  have := tok_unique (r.drop d) ⟨i, hi⟩ ⟨k, hk5⟩ hpi hpk
  exact congrArg Fin.val this

/-- The chosen occurrence lies inside the text and its token is nonempty. -/
theorem findTok_span {r : List Char} {d k : Nat} (h : findTok r = some (d, k)) :
    1 ≤ (tokAt k).length ∧ d + (tokAt k).length ≤ r.length := by
  obtain ⟨hk5, hocc⟩ := findTok_occ h
  have hp := strstr_isPrefixOf (tokAt k) r d hocc
  have hlen : (tokAt k).length ≤ (r.drop d).length :=
    (List.isPrefixOf_iff_prefix.mp hp).length_le
  have h1 : 1 ≤ (tokAt k).length := by interval_cases k <;> decide
  have h2 : (r.drop d).length = r.length - d := List.length_drop d r
  constructor
  · exact h1
  · omega

/-! ## Lemmas about the substitution loop -/

/-- Any fuel beyond the remaining text's length computes the same result:
the fuel argument of `tplIter` is a recursion bound only. -/
theorem tplIter_fuel_irrelevant (fs : FieldStrs) :
    ∀ (n m : Nat) (pre r : List Char), r.length < n → r.length < m →
      tplIter fs n pre r = tplIter fs m pre r := by
  intro n
  induction n with
  | zero => intro m pre r hn _; omega
  | succ n ih =>
    intro m pre r hn hm
    cases m with
    | zero => omega
    | succ m =>
      cases hft : findTok r with
      | none => simp only [tplIter, hft]
      | some dk =>
        obtain ⟨d, k⟩ := dk
        obtain ⟨h1, h2⟩ := findTok_span hft
        have hdrop : (r.drop (d + (tokAt k).length)).length =
            r.length - (d + (tokAt k).length) := List.length_drop _ _
        simp only [tplIter, hft]
        split_ifs with c1 c2
        · rfl
        · rfl
        · exact ih m _ _ (by omega) (by omega)

/-! ## Lemmas about rotation and `log_notify`'s structure -/

/-- The rotation block exits exactly when it rotated and the reopen failed. -/
theorem rotStep_exited_iff (cfg : Config) (env : Env) (fd : Int) :
    (rotStep cfg env fd).exited = true ↔
      rotCond cfg env = true ∧ env.openRes < 0 := by
  simp only [rotStep]
  split_ifs with h1 h2 <;> simp_all

/-- A network sink never satisfies the rotation trigger. -/
theorem rotCond_net {cfg : Config} {env : Env}
    (h : cfg.log_type = SinkKind.kNet) : rotCond cfg env = false := by
  unfold rotCond
  rw [h]
  rfl

/-- Without the trigger, the rotation block does nothing. -/
theorem rotStep_skip {cfg : Config} {env : Env} {fd : Int}
    (h : rotCond cfg env = false) : rotStep cfg env fd = ⟨fd, [], false⟩ := by
  simp [rotStep, h]

/-- When the trigger holds and the reopen succeeds, the rotation block
closes the old fd, renames to `<path>.old`, opens a fresh file and
continues on the new fd. -/
theorem rotStep_rotates {cfg : Config} {env : Env} {fd : Int}
    (h : rotCond cfg env = true) (ho : ¬ env.openRes < 0) :
    rotStep cfg env fd =
      ⟨env.openRes,
       [Act.closeFd fd, Act.renameTo cfg.filePath (oldPath cfg.filePath),
        Act.openFile cfg.filePath], false⟩ := by
  simp [rotStep, h, ho]

/-- Running `log_notify` on a record the filter rejects: only the rotation block's
effects happen and the call returns 0. -/
theorem log_notify_filtered {cfg : Config} {env : Env} {fd : Int}
    {frame : Frame} {r : ParsedRec} (hfd : ¬ fd < 0)
    (hp : parseFrame frame = some r)
    (hex : (rotStep cfg env fd).exited = false)
    (hf : filterPass cfg r.m = false) :
    log_notify cfg env fd frame =
      ⟨(rotStep cfg env fd).fd, (rotStep cfg env fd).acts, 0, false⟩ := by
  unfold log_notify
  rw [if_neg hfd]
  simp only [hp, hex, hf, Bool.false_eq_true, if_false]

/-- Running `log_notify` when the rotation block exits: the process is gone. -/
theorem log_notify_rot_exit {cfg : Config} {env : Env} {fd : Int}
    {frame : Frame} {r : ParsedRec} (hfd : ¬ fd < 0)
    (hp : parseFrame frame = some r)
    (hex : (rotStep cfg env fd).exited = true) :
    log_notify cfg env fd frame =
      ⟨(rotStep cfg env fd).fd, (rotStep cfg env fd).acts, 0, true⟩ := by
  unfold log_notify
  rw [if_neg hfd]
  simp only [hp, hex, if_true]

/-- Running `log_notify` in template mode when expansion fails: the rotation
block's actions, then the overflow diagnostic; nothing is delivered and
the call returns 1 without exiting. -/
theorem log_notify_tpl_err {cfg : Config} {env : Env} {fd : Int}
    {frame : Frame} {r : ParsedRec} {tpl d : List Char} (hfd : ¬ fd < 0)
    (hp : parseFrame frame = some r)
    (hex : (rotStep cfg env fd).exited = false)
    (hf : filterPass cfg r.m = true) (htpl : cfg.tpl = some tpl)
    (htf : tplFormat (fieldStrsOf r) tpl = Except.error d) :
    log_notify cfg env fd frame =
      ⟨(rotStep cfg env fd).fd, (rotStep cfg env fd).acts ++ [Act.diag d],
       1, false⟩ := by
  unfold log_notify
  rw [if_neg hfd]
  simp only [hp, hex, hf, htpl, htf, Bool.false_eq_true, if_false, if_true]

/-- Running `log_notify` in template mode when expansion succeeds: delivery of the
expanded record. -/
theorem log_notify_tpl_ok {cfg : Config} {env : Env} {fd : Int}
    {frame : Frame} {r : ParsedRec} {tpl s : List Char} (hfd : ¬ fd < 0)
    (hp : parseFrame frame = some r)
    (hex : (rotStep cfg env fd).exited = false)
    (hf : filterPass cfg r.m = true) (htpl : cfg.tpl = some tpl)
    (htf : tplFormat (fieldStrsOf r) tpl = Except.ok s) :
    log_notify cfg env fd frame =
      deliver cfg env (rotStep cfg env fd).fd (rotStep cfg env fd).acts r
        (some s) := by
  unfold log_notify
  rw [if_neg hfd]
  simp only [hp, hex, hf, htpl, htf, Bool.false_eq_true, if_false, if_true]

/-- Running `log_notify` in fixed mode: delivery of the fixed-layout record. -/
theorem log_notify_fixed {cfg : Config} {env : Env} {fd : Int}
    {frame : Frame} {r : ParsedRec} (hfd : ¬ fd < 0)
    (hp : parseFrame frame = some r)
    (hex : (rotStep cfg env fd).exited = false)
    (hf : filterPass cfg r.m = true) (htpl : cfg.tpl = none) :
    log_notify cfg env fd frame =
      deliver cfg env (rotStep cfg env fd).fd (rotStep cfg env fd).acts r
        none := by
  unfold log_notify
  rw [if_neg hfd]
  simp only [hp, hex, hf, htpl, Bool.false_eq_true, if_false, if_true]

/-- A non-exiting rotation block emits no diagnostic and no exit. -/
theorem rotStep_acts_clean {cfg : Config} {env : Env} {fd : Int}
    (hex : (rotStep cfg env fd).exited = false) :
    (∀ s, Act.diag s ∉ (rotStep cfg env fd).acts) ∧
    (∀ c, Act.procExit c ∉ (rotStep cfg env fd).acts) := by
  unfold rotStep at hex ⊢
  split_ifs at hex ⊢ with h1 h2 <;> simp_all

/-- Delivery on a failing network write: the record's bytes are written
once, then the sink is torn down (`uloop_fd_delete`, `close`,
`sender.fd = -1`) and the 1000 ms retry timer armed. -/
theorem deliver_net_fail {cfg : Config} {env : Env} {fd : Int}
    {acts : List Act} {r : ParsedRec} {tplOut : Option (List Char)}
    (hnet : cfg.log_type = SinkKind.kNet) (herr : env.netWriteRes < 0) :
    deliver cfg env fd acts r tplOut =
      ⟨-1, acts ++ [Act.netWrite (sentBytes cfg (payloadOf cfg r tplOut)),
                    Act.note sendFailNote, Act.fdDel, Act.closeFd fd,
                    Act.timerSet 1000], 0, false⟩ := by
  unfold deliver
  simp only [hnet, if_pos herr, List.append_assoc, List.cons_append,
    List.nil_append]

/-- Delivery on a successful network write. -/
theorem deliver_net_ok {cfg : Config} {env : Env} {fd : Int}
    {acts : List Act} {r : ParsedRec} {tplOut : Option (List Char)}
    (hnet : cfg.log_type = SinkKind.kNet) (herr : ¬ env.netWriteRes < 0) :
    deliver cfg env fd acts r tplOut =
      ⟨fd, acts ++ [Act.netWrite (sentBytes cfg (payloadOf cfg r tplOut))],
       0, false⟩ := by
  unfold deliver
  simp only [hnet, if_neg herr]

/-- Delivery to a file sink: one write of the formatted line, an fsync,
and the write's result returned; the fd is kept and the process never
exits here. -/
theorem deliver_file {cfg : Config} {env : Env} {fd : Int}
    {acts : List Act} {r : ParsedRec} {tplOut : Option (List Char)}
    (hf : cfg.log_type = SinkKind.kFile) :
    deliver cfg env fd acts r tplOut =
      ⟨fd, acts ++ [Act.sinkWrite (lineOf cfg r tplOut), Act.fsyncFd fd],
       env.fileWriteRes, false⟩ := by
  unfold deliver
  simp only [hf, show (SinkKind.kFile == SinkKind.kFile) = true from rfl,
    if_true]
  simp [List.append_assoc]

/-- Delivery to the stdout sink: one write, result returned, no fsync. -/
theorem deliver_stdout {cfg : Config} {env : Env} {fd : Int}
    {acts : List Act} {r : ParsedRec} {tplOut : Option (List Char)}
    (hs : cfg.log_type = SinkKind.kStdout) :
    deliver cfg env fd acts r tplOut =
      ⟨fd, acts ++ [Act.sinkWrite (lineOf cfg r tplOut)],
       env.fileWriteRes, false⟩ := by
  unfold deliver
  simp only [hs, show (SinkKind.kStdout == SinkKind.kFile) = false from rfl,
    if_false]
  simp

/-- Whatever delivery does, its actions extend the given prefix with
write-path actions only: no rename, no diagnostic, no exit, and for
non-network sinks the fd is unchanged. -/
theorem deliver_split (cfg : Config) (env : Env) (fd : Int) (acts : List Act)
    (r : ParsedRec) (t : Option (List Char)) :
    ∃ rest, (deliver cfg env fd acts r t).acts = acts ++ rest ∧
      (∀ a b, Act.renameTo a b ∉ rest) ∧
      (∀ s, Act.diag s ∉ rest) ∧
      (∀ c, Act.procExit c ∉ rest) ∧
      (deliver cfg env fd acts r t).exited = false ∧
      (cfg.log_type ≠ SinkKind.kNet → (deliver cfg env fd acts r t).fd = fd) := by
  cases hlt : cfg.log_type with
  | kStdout =>
    rw [deliver_stdout hlt]
    exact ⟨[Act.sinkWrite (lineOf cfg r t)], rfl,
           fun a b => by simp, fun s => by simp, fun c => by simp, rfl,
           fun _ => rfl⟩
  | kFile =>
    rw [deliver_file hlt]
    exact ⟨[Act.sinkWrite (lineOf cfg r t), Act.fsyncFd fd], rfl,
           fun a b => by simp, fun s => by simp, fun c => by simp, rfl,
           fun _ => rfl⟩
  | kNet =>
    by_cases he : env.netWriteRes < 0
    · rw [deliver_net_fail hlt he]
      exact ⟨[Act.netWrite (sentBytes cfg (payloadOf cfg r t)),
              Act.note sendFailNote, Act.fdDel, Act.closeFd fd,
              Act.timerSet 1000], rfl,
             fun a b => by simp, fun s => by simp, fun c => by simp, rfl,
             fun hne => absurd rfl (hlt ▸ hne)⟩
    · rw [deliver_net_ok hlt he]
      exact ⟨[Act.netWrite (sentBytes cfg (payloadOf cfg r t))], rfl,
             fun a b => by simp, fun s => by simp, fun c => by simp, rfl,
             fun hne => absurd rfl (hlt ▸ hne)⟩

/-- Running `log_notify` after a successful parse and non-fatal rotation: the
rotation block's actions come first and nothing later renames; the fd is
preserved for non-network sinks; the process does not exit. -/
theorem log_notify_split {cfg : Config} {env : Env} {fd : Int}
    {frame : Frame} {r : ParsedRec} (hfd : ¬ fd < 0)
    (hp : parseFrame frame = some r)
    (hex : (rotStep cfg env fd).exited = false) :
    ∃ rest, (log_notify cfg env fd frame).acts = (rotStep cfg env fd).acts ++ rest ∧
      (∀ a b, Act.renameTo a b ∉ rest) ∧
      (log_notify cfg env fd frame).exited = false ∧
      (cfg.log_type ≠ SinkKind.kNet →
        (log_notify cfg env fd frame).fd = (rotStep cfg env fd).fd) := by
  cases hf : filterPass cfg r.m with
  | false =>
    rw [log_notify_filtered hfd hp hex hf]
    exact ⟨[], by simp, fun a b => by simp, rfl, fun _ => rfl⟩
  | true =>
    cases htpl : cfg.tpl with
    | none =>
      rw [log_notify_fixed hfd hp hex hf htpl]
      obtain ⟨rest, h1, h2, _, _, h5, h6⟩ :=
        deliver_split cfg env (rotStep cfg env fd).fd (rotStep cfg env fd).acts
          r none
      exact ⟨rest, h1, h2, h5, h6⟩
    | some tpl =>
      cases htf : tplFormat (fieldStrsOf r) tpl with
      | error d =>
        rw [log_notify_tpl_err hfd hp hex hf htpl htf]
        exact ⟨[Act.diag d], rfl, fun a b => by simp, rfl, fun _ => rfl⟩
      | ok s =>
        rw [log_notify_tpl_ok hfd hp hex hf htpl htf]
        obtain ⟨rest, h1, h2, _, _, h5, h6⟩ :=
          deliver_split cfg env (rotStep cfg env fd).fd (rotStep cfg env fd).acts
            r (some s)
        exact ⟨rest, h1, h2, h5, h6⟩

/-! ## The claims -/

/-- C5: for every inbound frame in which any of the five required fields
(`msg`, `id`, `priority`, `source`, `time`) is absent or has the wrong
declared type, the parser skips the frame: no record is constructed,
`log_notify` performs no action at all (no write, no diagnostic) and
returns 1 without exiting, and the frame loop goes on to the next frame,
its result unchanged apart from the recorded return value. -/
theorem c5_missing_field_skipped (cfg : Config) (env : Env) (fd : Int)
    (frame : Frame) (hfd : ¬ fd < 0)
    (h : tbLookup frame ("msg".toList) BTy.tstr = none ∨
         tbLookup frame ("id".toList) BTy.t32 = none ∨
         tbLookup frame ("priority".toList) BTy.t32 = none ∨
         tbLookup frame ("source".toList) BTy.t32 = none ∨
         tbLookup frame ("time".toList) BTy.t64 = none) :
    log_notify cfg env fd frame = ⟨fd, [], 1, false⟩ ∧
    ∀ rest, processFrames cfg fd ((frame, env) :: rest) =
      ⟨(processFrames cfg fd rest).fd, (processFrames cfg fd rest).acts,
       1 :: (processFrames cfg fd rest).rets⟩ := by
  have hp : parseFrame frame = none := by
    unfold parseFrame
    rcases h with h | h | h | h | h <;> (split <;> simp_all)
  have h1 : log_notify cfg env fd frame = ⟨fd, [], 1, false⟩ := by
    unfold log_notify
    rw [if_neg hfd]
    simp only [hp]
  refine ⟨h1, fun rest => ?_⟩
  simp only [processFrames, h1, List.nil_append, Bool.false_eq_true, if_false]

/-- C5 witness: a frame whose `msg` field has the wrong declared type is
silently skipped. -/
theorem c5_witness : log_notify cfg0 env0 1 frameBad = ⟨1, [], 1, false⟩ :=
  (c5_missing_field_skipped cfg0 env0 1 frameBad (by decide)
    (Or.inl (by decide))).1

/-- C6: at every substitution step, the placeholder chosen by the search
loop is the earliest-starting occurrence of any recognized token in the
remaining text, and among tokens starting at that same position the one
enumerated first in `TPL_FIELDS` order wins (in fact no other token can
start there). -/
theorem c6_earliest_placeholder_wins (r : List Char) (d k : Nat)
    (h : findTok r = some (d, k)) :
    k < 5 ∧ (tokAt k).isPrefixOf (r.drop d) = true ∧
    (∀ i, i < 5 → ∀ q, strstrIdx (tokAt i) r = some q → d ≤ q) ∧
    (∀ i, i < 5 → strstrIdx (tokAt i) r = some d → k ≤ i) := by
  obtain ⟨hk5, hocc⟩ := findTok_occ h
  refine ⟨hk5, strstr_isPrefixOf _ _ _ hocc, findTok_min h, ?_⟩
  intro i hi hocc2
  have hik := findTok_at_pos h hi hocc2
  omega

/-- C6 witness: on `"%priority% %message%"` the search picks `%priority%`
(token index 1) at position 0, the earliest occurrence. -/
theorem c6_witness :
    (1 : Nat) < 5 ∧
    (tokAt 1).isPrefixOf (("%priority% %message%".toList).drop 0) = true :=
  ⟨(c6_earliest_placeholder_wins ("%priority% %message%".toList) 0 1
      (by decide)).1,
   (c6_earliest_placeholder_wins ("%priority% %message%".toList) 0 1
      (by decide)).2.1⟩

/-- C8: a template in which none of the five recognized placeholder
tokens occurs expands to itself, for every record's field strings: the
substitution loop finds nothing and returns the text unchanged. -/
theorem c8_no_placeholder_unchanged (tpl : List Char) (fs : FieldStrs)
    (h : ∀ tok ∈ tokList, strstrIdx tok tpl = none) :
    tplLoop fs [] tpl = Except.ok tpl := by
  have hn : findTok tpl = none := findTok_none_iff.mpr h
  unfold tplLoop
  simp only [tplIter, hn, List.nil_append]

/-- C8 witness: a placeholder-free template passes through unchanged. -/
theorem c8_witness :
    tplLoop (fieldStrsOf recW) [] ("plain text 100% free".toList) =
      Except.ok ("plain text 100% free".toList) :=
  c8_no_placeholder_unchanged ("plain text 100% free".toList)
    (fieldStrsOf recW) (by decide)

/-- C9: one step of the frame decoder delivers a frame only when the
buffer holds at least the 4-byte header plus the header's declared payload
length (`blob_len`); it then removes exactly those bytes, the leftover
remaining buffered, and otherwise it waits; the emitted frame is exactly
the declared bytes, never a partial frame. -/
theorem c9_decoder_exact (buf : List Nat) :
    (∀ f rest, decodeStep buf = some (f, rest) →
      4 ≤ buf.length ∧ 4 + blobLenModel buf ≤ (buf.length : Int) ∧
      (f.length : Int) = 4 + blobLenModel buf ∧
      f ++ rest = buf ∧ rest = buf.drop (declTotal buf)) ∧
    (decodeStep buf = none →
      buf.length < 4 ∨ (buf.length : Int) < 4 + blobLenModel buf) := by
  unfold decodeStep blobLenModel
  by_cases h4 : buf.length < 4
  · rw [if_pos h4]
    exact ⟨fun f rest hh => Option.noConfusion hh, fun _ => Or.inl h4⟩
  · rw [if_neg h4]
    by_cases hc : buf.length < declTotal buf
    · rw [if_pos hc]
      refine ⟨fun f rest hh => Option.noConfusion hh, fun _ => Or.inr ?_⟩
      omega
    · rw [if_neg hc]
      refine ⟨?_, fun hh => Option.noConfusion hh⟩
      intro f rest hh
      have h' := Option.some.inj hh
      rw [Prod.ext_iff] at h'
      obtain ⟨hf, hr⟩ := h'
      simp only at hf hr
      subst hf
      subst hr
      have hlen : (buf.take (declTotal buf)).length = declTotal buf := by
        rw [List.length_take]
        omega
      refine ⟨by omega, by omega, ?_, List.take_append_drop _ _,
              rfl⟩
      rw [hlen]
      omega

/-- C9 witness: a buffer holding exactly one declared 6-byte frame is
consumed whole. -/
theorem c9_witness :
    4 ≤ ([0, 0, 0, 6, 9, 9] : List Nat).length ∧
    ([0, 0, 0, 6, 9, 9] : List Nat).take 6 ++ ([0, 0, 0, 6, 9, 9] : List Nat).drop 6
      = [0, 0, 0, 6, 9, 9] := by
  have h := (c9_decoder_exact [0, 0, 0, 6, 9, 9]).1
    (([0, 0, 0, 6, 9, 9] : List Nat).take 6)
    (([0, 0, 0, 6, 9, 9] : List Nat).drop 6) (by decide)
  exact ⟨h.1, h.2.2.2.1⟩

/-- C10: with a file sink, a configured filter and the size threshold
exceeded, the rotation block (close, rename to `<path>.old`, reopen) runs
for a successfully parsed record before the filter is consulted: a record
whose message fails the filter still rotates the file, produces no write,
and the call returns 0. -/
theorem c10_rotation_before_filter (cfg : Config) (env : Env) (fd : Int)
    (frame : Frame) (r : ParsedRec) (flt : List Char → Bool)
    (hfd : ¬ fd < 0) (hp : parseFrame frame = some r)
    (hflt : cfg.filterMatch = some flt) (hnm : flt r.m = false)
    (hrot : rotCond cfg env = true) (ho : ¬ env.openRes < 0) :
    log_notify cfg env fd frame =
      ⟨env.openRes,
       [Act.closeFd fd, Act.renameTo cfg.filePath (oldPath cfg.filePath),
        Act.openFile cfg.filePath], 0, false⟩ := by
  have hrs := @rotStep_rotates cfg env fd hrot ho
  have hex : (rotStep cfg env fd).exited = false := by rw [hrs]
  have hf : filterPass cfg r.m = false := by
    unfold filterPass
    simp only [hflt]
    exact hnm
  rw [log_notify_filtered hfd hp hex hf, hrs]

/-- C10 witness: a record rejected by the filter still triggers the
rotation (stat over threshold, rename, reopen) and nothing is written. -/
theorem c10_witness :
    log_notify cfg10 env10 3 frameW =
      ⟨env10.openRes,
       [Act.closeFd 3, Act.renameTo cfg10.filePath (oldPath cfg10.filePath),
        Act.openFile cfg10.filePath], 0, false⟩ :=
  c10_rotation_before_filter cfg10 env10 3 frameW recW (fun _ => false)
    (by decide) (by decide) rfl rfl (by decide) (by decide)

/-- C3: the claim states the code's evident intent — the `availen < 0`
guards and the `"size of log is larger than the internal buffer"`
diagnostic exist precisely to fail with Overflow on any record whose
substitution would exceed the 512-byte buffer, and with the 520-character
message they do fire — but the accumulator is a 16-bit `short`:
substituting a 40000-character message into `"%message%"` turns the true
balance `511 - 40000` into `+26047` modulo 2^16, neither guard fires, and
formatting returns the 40000-character output with no Overflow diagnostic
(at that point the C `strncat` has already written those bytes past the
512-byte `buf2`, a stack buffer overflow).  So the code violates the
claim on messages of roughly 33-66 KB: the record is neither dropped nor
diagnosed. -/
theorem c3_short_wrap_bypasses_check :
    tplFormat (fieldStrsOf recBig) ("%message%".toList) =
      Except.error ovfDiag ∧
    tplFormat (fieldStrsOf recHuge) ("%message%".toList) =
      Except.ok hugeMsg ∧
    511 < hugeMsg.length ∧
    wrap16 (511 - (hugeMsg.length : Int)) = 26047 := by
  have hlen : hugeMsg.length = 40000 := List.length_replicate 40000 'a'
  refine ⟨by decide, ?_, by rw [hlen]; omega, by rw [hlen]; decide⟩
  unfold tplFormat
  rw [if_neg (by decide)]
  unfold tplLoop
  rw [tplIter_fuel_irrelevant (fieldStrsOf recHuge) _ (9 + 1) []
    ("%message%".toList) (by decide) (by decide)]
  have hft : findTok ("%message%".toList) = some (0, 0) := by decide
  have hfield : fieldOf (fieldStrsOf recHuge) 0 = hugeMsg := rfl
  have htok9 : (tokAt 0).length = 9 := by decide
  have hdrop : ("%message%".toList).drop (0 + 9) = ([] : List Char) := by
    decide
  simp only [tplIter, hft, List.take_zero, List.append_nil, List.nil_append,
    hfield, htok9, hdrop, hlen, List.length_nil, Nat.cast_zero,
    Nat.cast_ofNat]
  rw [if_neg (by decide), if_neg (by decide)]
  have hfe : findTok ([] : List Char) = none := by decide
  simp only [hfe]

/-- Running `log_notify` on a network sink with an available payload: one write
of the trailed bytes, then either success or the teardown-and-retry
sequence. -/
theorem log_notify_net_deliver {cfg : Config} {env : Env} {fd : Int}
    {frame : Frame} {r : ParsedRec} {payload : List Char}
    (hnet : cfg.log_type = SinkKind.kNet) (hfd : ¬ fd < 0)
    (hp : parseFrame frame = some r) (hf : filterPass cfg r.m = true)
    (hpay : netPayloadE cfg r = Except.ok payload) :
    log_notify cfg env fd frame =
      if env.netWriteRes < 0 then
        ⟨-1, [Act.netWrite (sentBytes cfg payload), Act.note sendFailNote,
              Act.fdDel, Act.closeFd fd, Act.timerSet 1000], 0, false⟩
      else ⟨fd, [Act.netWrite (sentBytes cfg payload)], 0, false⟩ := by
  have hrc : rotCond cfg env = false := rotCond_net hnet
  have hrs : rotStep cfg env fd = ⟨fd, [], false⟩ := rotStep_skip hrc
  have hex : (rotStep cfg env fd).exited = false := by rw [hrs]
  cases htpl : cfg.tpl with
  | none =>
    have hpl : fixedNetContent cfg r = payload := by
      unfold netPayloadE at hpay
      simp only [htpl] at hpay
      exact Except.ok.inj hpay
    rw [log_notify_fixed hfd hp hex hf htpl, hrs]
    by_cases he : env.netWriteRes < 0
    · rw [if_pos he, deliver_net_fail hnet he]
      simp [payloadOf, hpl]
    · rw [if_neg he, deliver_net_ok hnet he]
      simp [payloadOf, hpl]
  | some tpl =>
    have hpl : tplFormat (fieldStrsOf r) tpl = Except.ok payload := by
      unfold netPayloadE at hpay
      simp only [htpl] at hpay
      exact hpay
    rw [log_notify_tpl_ok hfd hp hex hf htpl hpl, hrs]
    by_cases he : env.netWriteRes < 0
    · rw [if_pos he, deliver_net_fail hnet he]
      simp [payloadOf]
    · rw [if_neg he, deliver_net_ok hnet he]
      simp [payloadOf]

/-- C4: a write failure on a network sink tears the sink down — the
failed write is the only write, the handle is deleted from the event loop
and closed, the fd becomes -1 (Disconnected) and the retry timer is armed
at the fixed 1000 ms — and the record is dropped, never requeued; each
reconnect tick that fails prints a diagnostic and re-arms the same fixed
1000 ms timer, leaving the fd negative, while a successful connect
registers the new fd with the event loop and arms no timer. -/
theorem c4_net_write_failure :
    (∀ (cfg : Config) (env : Env) (fd : Int) (frame : Frame) (r : ParsedRec)
       (payload : List Char),
      cfg.log_type = SinkKind.kNet → ¬ fd < 0 →
      parseFrame frame = some r → filterPass cfg r.m = true →
      netPayloadE cfg r = Except.ok payload → env.netWriteRes < 0 →
      log_notify cfg env fd frame =
        ⟨-1, [Act.netWrite (sentBytes cfg payload), Act.note sendFailNote,
              Act.fdDel, Act.closeFd fd, Act.timerSet 1000], 0, false⟩) ∧
    (∀ e : ReEnv,
      (e.connectRes < 0 →
        log_handle_reconnect e =
          (e.connectRes, [Act.diag connFailDiag, Act.timerSet 1000])) ∧
      (¬ e.connectRes < 0 →
        log_handle_reconnect e =
          (e.connectRes, [Act.fdAdd, Act.note connOkNote]))) := by
  constructor
  · intro cfg env fd frame r payload hnet hfd hp hf hpay herr
    rw [log_notify_net_deliver hnet hfd hp hf hpay, if_pos herr]
  · intro e
    constructor
    · intro hc
      simp [log_handle_reconnect, hc]
    · intro hc
      simp [log_handle_reconnect, hc]

/-- C4 witness: a failing TCP write drops the record, closes the sink and
arms the 1000 ms timer; a failing reconnect re-arms it, a succeeding one
registers the fd. -/
theorem c4_witness :
    log_notify cfg4 env4 1 frameW =
      ⟨-1, [Act.netWrite ("hi".toList ++ ['\n']), Act.note sendFailNote,
            Act.fdDel, Act.closeFd 1, Act.timerSet 1000], 0, false⟩ ∧
    log_handle_reconnect ⟨-2⟩ =
      (-2, [Act.diag connFailDiag, Act.timerSet 1000]) ∧
    log_handle_reconnect ⟨6⟩ = (6, [Act.fdAdd, Act.note connOkNote]) :=
  ⟨c4_net_write_failure.1 cfg4 env4 1 frameW recW ("hi".toList) rfl
     (by decide) (by decide) rfl (by decide) (by decide),
   (c4_net_write_failure.2 ⟨-2⟩).1 (by decide),
   (c4_net_write_failure.2 ⟨6⟩).2 (by decide)⟩

/-- C7 counterexample: with a UDP network sink the datagram carries
exactly the formatted bytes — here `"hi"` — with no trailing newline and
no trailing null byte, so a record written to a network sink is not
always terminated by a trailer selected by the trailer option. -/
theorem c7_counterexample :
    (log_notify cfg7 env0 1 frameW).acts = [Act.netWrite ("hi".toList)] ∧
    ("hi".toList).getLast? ≠ some '\n' ∧
    ("hi".toList).getLast? ≠ some (Char.ofNat 0) := by decide

/-- C7 (amended): a network sink performs exactly one write per delivered
record; on TCP the bytes are the formatted record plus a trailing newline
or null byte selected by the trailer option, while on UDP the datagram is
exactly the formatted record with no added terminator. -/
theorem c7_trailer_tcp_only (cfg : Config) (env : Env) (fd : Int)
    (frame : Frame) (r : ParsedRec) (payload : List Char)
    (hnet : cfg.log_type = SinkKind.kNet) (hfd : ¬ fd < 0)
    (hp : parseFrame frame = some r) (hf : filterPass cfg r.m = true)
    (hpay : netPayloadE cfg r = Except.ok payload) :
    netWrites (log_notify cfg env fd frame).acts = [sentBytes cfg payload] ∧
    (cfg.log_udp = true → sentBytes cfg payload = payload) ∧
    (cfg.log_udp = false →
      sentBytes cfg payload =
        payload ++ [if cfg.log_trailer_null then Char.ofNat 0 else '\n']) := by
  refine ⟨?_, fun hu => by simp [sentBytes, hu],
          fun hu => by simp [sentBytes, hu]⟩
  rw [log_notify_net_deliver hnet hfd hp hf hpay]
  by_cases he : env.netWriteRes < 0
  · rw [if_pos he]
    simp [netWrites]
  · rw [if_neg he]
    simp [netWrites]

/-- C7 witness: over TCP with the null-trailer option unset the record
goes out as `"hi\n"`; over UDP it goes out as exactly `"hi"`. -/
theorem c7_witness :
    netWrites (log_notify cfg4 env0 1 frameW).acts =
      [sentBytes cfg4 ("hi".toList)] ∧
    sentBytes cfg4 ("hi".toList) = "hi".toList ++ ['\n'] ∧
    netWrites (log_notify cfg7 env0 1 frameW).acts =
      [sentBytes cfg7 ("hi".toList)] ∧
    sentBytes cfg7 ("hi".toList) = "hi".toList :=
  ⟨(c7_trailer_tcp_only cfg4 env0 1 frameW recW ("hi".toList) rfl (by decide)
      (by decide) rfl (by decide)).1,
   (c7_trailer_tcp_only cfg4 env0 1 frameW recW ("hi".toList) rfl (by decide)
      (by decide) rfl (by decide)).2.2 rfl,
   (c7_trailer_tcp_only cfg7 env0 1 frameW recW ("hi".toList) rfl (by decide)
      (by decide) rfl (by decide)).1,
   (c7_trailer_tcp_only cfg7 env0 1 frameW recW ("hi".toList) rfl (by decide)
      (by decide) rfl (by decide)).2.1 rfl⟩

/-- C1 counterexample: with a file sink, a failing `write` is silently
ignored — `log_notify` returns the error value, which the frame loop
discards: two frames both hit the failing write, no diagnostic appears,
the process does not exit, and the second frame is still processed and
written after the first write failed, contradicting "the process reports
the error and terminates ... processing never continues past it". -/
theorem c1_counterexample :
    processFrames cfg1c 3 [(frameX, env1c), (frameY, env1c)] =
      ⟨3, [Act.sinkWrite ('x' :: ['\n']), Act.fsyncFd 3,
           Act.sinkWrite ('y' :: ['\n']), Act.fsyncFd 3], [-1, -1]⟩ := by
  decide

/-- C1 (amended): a file-sink write failure is not fatal: `log_notify`
returns the write's negative result, emits no diagnostic, does not exit,
and the caller keeps processing; only failing to open the log file —
here, the reopen after a rotation — is fatal, with a diagnostic and
`exit(-1)`. -/
theorem c1_file_write_failure_ignored :
    (∀ (cfg : Config) (env : Env) (fd : Int) (frame : Frame) (r : ParsedRec),
      cfg.log_type = SinkKind.kFile → ¬ fd < 0 →
      parseFrame frame = some r → (rotStep cfg env fd).exited = false →
      filterPass cfg r.m = true →
      (cfg.tpl = none ∨ ∃ tpl s, cfg.tpl = some tpl ∧
        tplFormat (fieldStrsOf r) tpl = Except.ok s) →
      env.fileWriteRes < 0 →
      (log_notify cfg env fd frame).ret = env.fileWriteRes ∧
      (log_notify cfg env fd frame).exited = false ∧
      (∀ c, Act.procExit c ∉ (log_notify cfg env fd frame).acts) ∧
      (∀ s, Act.diag s ∉ (log_notify cfg env fd frame).acts) ∧
      (∃ b, Act.sinkWrite b ∈ (log_notify cfg env fd frame).acts)) ∧
    (∀ (cfg : Config) (env : Env) (fd : Int) (frame : Frame) (r : ParsedRec),
      cfg.log_type = SinkKind.kFile → ¬ fd < 0 →
      parseFrame frame = some r → rotCond cfg env = true →
      env.openRes < 0 →
      (log_notify cfg env fd frame).exited = true ∧
      Act.diag openFailDiag ∈ (log_notify cfg env fd frame).acts ∧
      Act.procExit (-1) ∈ (log_notify cfg env fd frame).acts) := by
  constructor
  · intro cfg env fd frame r hfile hfd hp hex hf htpl herr
    obtain ⟨hnd, hne⟩ := rotStep_acts_clean hex
    have main : ∀ t, log_notify cfg env fd frame =
        deliver cfg env (rotStep cfg env fd).fd (rotStep cfg env fd).acts r t →
        (log_notify cfg env fd frame).ret = env.fileWriteRes ∧
        (log_notify cfg env fd frame).exited = false ∧
        (∀ c, Act.procExit c ∉ (log_notify cfg env fd frame).acts) ∧
        (∀ s, Act.diag s ∉ (log_notify cfg env fd frame).acts) ∧
        (∃ b, Act.sinkWrite b ∈ (log_notify cfg env fd frame).acts) := by
      intro t hdel
      rw [hdel, deliver_file hfile]
      refine ⟨rfl, rfl, ?_, ?_, ⟨lineOf cfg r t, by simp⟩⟩
      · intro c
        simp only [List.mem_append]
        rintro (hin | hin)
        · exact hne c hin
        · simp at hin
      · intro s
        simp only [List.mem_append]
        rintro (hin | hin)
        · exact hnd s hin
        · simp at hin
    rcases htpl with htpl | ⟨tpl, s, htpl, hok⟩
    · exact main none (log_notify_fixed hfd hp hex hf htpl)
    · exact main (some s) (log_notify_tpl_ok hfd hp hex hf htpl hok)
  · intro cfg env fd frame r hfile hfd hp hrot ho
    have hex : (rotStep cfg env fd).exited = true :=
      (rotStep_exited_iff cfg env fd).mpr ⟨hrot, ho⟩
    rw [log_notify_rot_exit hfd hp hex]
    have hacts : (rotStep cfg env fd).acts =
        [Act.closeFd fd, Act.renameTo cfg.filePath (oldPath cfg.filePath),
         Act.openFile cfg.filePath] ++
          [Act.diag openFailDiag, Act.procExit (-1)] := by
      simp [rotStep, hrot, ho]
    exact ⟨rfl, by rw [hacts]; simp, by rw [hacts]; simp⟩

/-- C1 witness: a failing file write returns -1, does not exit, and a
failing rotation reopen does exit. -/
theorem c1_witness :
    (log_notify cfg1c env1c 3 frameX).ret = -1 ∧
    (log_notify cfg1c env1c 3 frameX).exited = false ∧
    (log_notify cfg2c envRotFail 3 frameX).exited = true := by
  have h1 := c1_file_write_failure_ignored.1 cfg1c env1c 3 frameX recX rfl
    (by decide) (by decide) (by decide) rfl
    (Or.inr ⟨"%message%".toList, "x".toList, rfl, by decide⟩) (by decide)
  have h2 := c1_file_write_failure_ignored.2 cfg2c envRotFail 3 frameX recX
    rfl (by decide) (by decide) (by decide) (by decide)
  exact ⟨h1.1, h1.2.1, h2.1⟩

/-- C2 counterexample: the rotation check compares the file's existing
size against the threshold, not the size the pending write would reach:
with the file observed at exactly the 1024-byte threshold, the pending
2-byte record would push it over, yet no rename happens — the record is
simply appended — contradicting "before any write that would push the
file size over the threshold the current file is renamed". -/
theorem c2_counterexample :
    cfg2c.log_size = 1024 ∧ env2c.statSize = some 1024 ∧
    log_notify cfg2c env2c 3 frameX =
      ⟨3, [Act.sinkWrite ('x' :: ['\n']), Act.fsyncFd 3], 0, false⟩ ∧
    0 < ('x' :: ['\n']).length := by decide

/-- C2 (amended): for a file sink with a size threshold, the rotation
check runs before each write and renames the current file to
`<path>.old` (then opens a fresh `<path>`, continuing on its fd) exactly
when the observed file size already strictly exceeds the threshold — so
the write that crosses the threshold is itself appended without rotation,
the file may exceed the threshold by one record, and a run of writes
crossing the threshold triggers exactly one rename, before the first
write after the crossing; nothing after the rotation block renames. -/
theorem c2_rotation_on_observed_size (cfg : Config) (env : Env) (fd : Int)
    (frame : Frame) (r : ParsedRec) (hfile : cfg.log_type = SinkKind.kFile)
    (hfd : ¬ fd < 0) (hp : parseFrame frame = some r)
    (hex : (rotStep cfg env fd).exited = false) :
    ∃ rest,
      (log_notify cfg env fd frame).acts =
        (if rotCond cfg env = true then
          [Act.closeFd fd, Act.renameTo cfg.filePath (oldPath cfg.filePath),
           Act.openFile cfg.filePath]
         else []) ++ rest ∧
      (∀ a b, Act.renameTo a b ∉ rest) ∧
      (rotCond cfg env = true →
        (log_notify cfg env fd frame).fd = env.openRes) := by
  obtain ⟨rest, h1, h2, _, h4⟩ := log_notify_split hfd hp hex
  have hnotnet : cfg.log_type ≠ SinkKind.kNet := by
    rw [hfile]
    intro hco
    cases hco
  cases hrc : rotCond cfg env with
  | false =>
    refine ⟨rest, ?_, h2, ?_⟩
    · rw [h1, rotStep_skip hrc]
      simp
    · intro hco
      cases hco
  | true =>
    have ho : ¬ env.openRes < 0 := by
      intro ho
      have := (rotStep_exited_iff cfg env fd).mpr ⟨hrc, ho⟩
      rw [hex] at this
      cases this
    refine ⟨rest, ?_, h2, fun _ => ?_⟩
    · rw [h1, rotStep_rotates hrc ho]
      simp
    · rw [h4 hnotnet, rotStep_rotates hrc ho]

/-- C2 witness: with the file observed over threshold, the rotation runs
and processing continues on the freshly opened fd. -/
theorem c2_witness :
    rotCond cfg10 env10 = true ∧ (log_notify cfg10 env10 3 frameW).fd = 7 := by
  obtain ⟨rest, h1, h2, h3⟩ := c2_rotation_on_observed_size cfg10 env10 3
    frameW recW rfl (by decide) (by decide) (by decide)
  refine ⟨by decide, ?_⟩
  rw [h3 (by decide)]
  rfl

end Logread
